import Mathlib

/-!
# Verification of the `mban_orientation` optimization notebooks

A shallow embedding of the two notebooks of this repository:

* `optimization_intro/.ipynb_checkpoints/2 - Transportation Problem-checkpoint.ipynb`
  builds a concrete 2×5 transportation linear program in JuMP and solves it
  with Gurobi; the checkpoint records the solver's output (`:Optimal`,
  objective `8600`, and the variable values returned by `getvalue(x)`).
* `optimization_intro/6 - Working with MIO Solvers.ipynb` builds a
  two-variable binary knapsack, a seeded synthetic `N = 350` knapsack
  (twice, the second time with `GurobiSolver(TimeLimit=1)`), and — in the
  companion word-embedding module — loads the IMDB dataset through
  `dataset_imdb(num_words = 5000, maxlen = 500, seed = 17)`, pads it with
  `pad_sequences(maxlen = 500)`, and fits Keras models with `epochs = 5`.

The notebooks implement no algorithms themselves: solving and fitting are
delegated to Gurobi and Keras.  The embedding therefore consists of
(a) the concrete problem data and model shapes, taken verbatim from the
notebook cells, with the mathematical content (feasibility, optimality,
infeasibility) proved outright, and (b) definitions explicitly modelled
from the specification for the external library surfaces that the
repository only calls (`pad_sequences`, `dataset_imdb`, `fit`, the seeded
random stream, the solver status contract).
-/

namespace Transportation

/-- Number of breweries (`m = 2` in the notebook). -/
def nSuppliers : ℕ := 2

/-- Number of bars (`n = 5` in the notebook). -/
def nConsumers : ℕ := 5

/-- Supplies: `b = [1000, 4000]`. -/
def b : Fin 2 → ℝ := ![1000, 4000]

/-- Demands: `d = [500, 900, 1800, 200, 700]`. -/
def d : Fin 5 → ℝ := ![500, 900, 1800, 200, 700]

/-- Costs: `c = [2 4 5 2 1; 3 1 3 2 3]`. -/
def c : Fin 2 → Fin 5 → ℝ := ![![2, 4, 5, 2, 1], ![3, 1, 3, 2, 3]]

/-- The constraint shape of the JuMP model, for a general instance:
`@variable(model, x[1:m,1:n] >= 0)`,
`@constraint(model, sum(x[i,:]) <= b[i])` for each supplier `i`, and
`@constraint(model, demand_constraint[j=1:n], sum(x[i,j] for i = 1:m) == d[j])`. -/
def TransportFeasible (m n : ℕ) (supply : Fin m → ℝ) (demand : Fin n → ℝ)
    (x : Fin m → Fin n → ℝ) : Prop :=
  (∀ i j, 0 ≤ x i j) ∧ (∀ i, ∑ j, x i j ≤ supply i) ∧ (∀ j, ∑ i, x i j = demand j)

/-- Feasibility for the notebook's concrete instance. -/
def feasible (x : Fin 2 → Fin 5 → ℝ) : Prop :=
  TransportFeasible 2 5 b d x

/-- The objective `@objective(model, Min, sum(x .* c))`. -/
def cost (x : Fin 2 → Fin 5 → ℝ) : ℝ :=
  ∑ i, ∑ j, c i j * x i j

/-- The variable values recorded by the `getvalue(x)` cell:
`[300 0 0 0 700; 200 900 1800 200 0]`. -/
def xstar : Fin 2 → Fin 5 → ℝ := ![![300, 0, 0, 0, 700], ![200, 900, 1800, 200, 0]]

/-- Terminal statuses of the external optimization capability. -/
inductive SolveStatus
  | optimal
  | infeasible
  | unbounded
  | timeLimit
  deriving DecidableEq, Repr

/-- The status recorded by the `solve(model)` cell: `:Optimal`. -/
def recordedStatus : SolveStatus := SolveStatus.optimal

/-- The objective value recorded by the `solve(model)` cell:
`Optimal objective  8.600000000e+03`. -/
def recordedObjective : ℝ := 8600

/-- Any feasible assignment routes total demand through total supply:
summing the demand equalities and the supply inequalities gives
`∑ d ≤ ∑ b`. -/
theorem sum_demand_le_sum_supply (m n : ℕ) (supply : Fin m → ℝ)
    (demand : Fin n → ℝ) (x : Fin m → Fin n → ℝ)
    (hx : TransportFeasible m n supply demand x) :
    ∑ j, demand j ≤ ∑ i, supply i := by
  obtain ⟨-, hrow, hcol⟩ := hx
  have h1 : ∑ j, demand j = ∑ j, ∑ i, x i j :=
    (Finset.sum_congr rfl fun j _ => (hcol j).symm)
  rw [h1, Finset.sum_comm]
  exact Finset.sum_le_sum fun i _ => hrow i

/-- The dual certificate computation behind optimality of `8600`: every
feasible assignment costs at least `8600`. -/
theorem cost_lower_bound (x : Fin 2 → Fin 5 → ℝ) (hx : feasible x) :
    8600 ≤ cost x := by
  obtain ⟨hpos, hrow, hcol⟩ := hx
  have hr0 := hrow 0
  have hc0 := hcol 0
  have hc1 := hcol 1
  have hc2 := hcol 2
  have hc3 := hcol 3
  have hc4 := hcol 4
  simp [b, d, Fin.sum_univ_five, Fin.sum_univ_two] at hr0 hc0 hc1 hc2 hc3 hc4
  simp [cost, c, Fin.sum_univ_five, Fin.sum_univ_two]
  linarith [hpos 0 1, hpos 0 2, hpos 0 3, hpos 1 4, hr0, hc0, hc1, hc2, hc3, hc4]

/-- The recorded plan satisfies all the model's constraints. -/
theorem xstar_feasible : feasible xstar := by
  refine ⟨?_, ?_, ?_⟩
  · intro i j
    fin_cases i <;> fin_cases j <;> norm_num [xstar]
  · intro i
    fin_cases i <;> norm_num [xstar, b, Fin.sum_univ_five]
  · intro j
    fin_cases j <;> norm_num [xstar, d, Fin.sum_univ_two]

/-- The recorded plan costs exactly `8600`. -/
theorem cost_xstar : cost xstar = 8600 := by
  simp [cost, c, xstar, Fin.sum_univ_five, Fin.sum_univ_two]
  norm_num

end Transportation

namespace Transportation

/-- C1: for the transportation instance with supplies `[1000, 4000]`, demands
`[500, 900, 1800, 200, 700]` and cost matrix `[2 4 5 2 1; 3 1 3 2 3]`, the
solve call reports status optimal with objective value `8600`; the returned
plan `[300 0 0 0 700; 200 900 1800 200 0]` is feasible (row sums ≤ supply,
column sums = demand, all entries non-negative), costs exactly `8600`, and no
feasible assignment costs less. -/
theorem transportation_instance_optimal :
    recordedStatus = SolveStatus.optimal ∧
    feasible xstar ∧
    cost xstar = 8600 ∧
    recordedObjective = cost xstar ∧
    ∀ x, feasible x → 8600 ≤ cost x := by
  refine ⟨rfl, xstar_feasible, cost_xstar, by rw [cost_xstar]; rfl, ?_⟩
  exact fun x hx => cost_lower_bound x hx

/-- C1 instantiated at the recorded plan itself: the optimality bound applied
to the feasible witness extracted from the theorem. -/
theorem transportation_instance_optimal_witness :
    8600 ≤ cost xstar :=
  transportation_instance_optimal.2.2.2.2 xstar transportation_instance_optimal.2.1

/-- Modelled from the spec: the contract of the external optimization
capability (spec §4.1 and §7), which is not code of this repository.  A solve
call returns a terminal status and optionally a variable assignment; any
returned assignment is feasible, and the `infeasible` status is reported
exactly when no feasible assignment exists. -/
structure SolveResult (m n : ℕ) (supply : Fin m → ℝ) (demand : Fin n → ℝ) where
  status : SolveStatus
  assignment : Option (Fin m → Fin n → ℝ)
  infeasible_iff :
    status = SolveStatus.infeasible ↔ ¬ ∃ x, TransportFeasible m n supply demand x
  assignment_feasible :
    ∀ x, assignment = some x → TransportFeasible m n supply demand x

/-- C5: under the model's constraint shape (row sums ≤ supply, column sums
= demand, variables ≥ 0), if total demand strictly exceeds total supply then
no feasible assignment exists, and a solve call honouring the capability's
contract reports status `infeasible` and returns no allocation. -/
theorem excess_demand_infeasible (m n : ℕ) (supply : Fin m → ℝ)
    (demand : Fin n → ℝ) (r : SolveResult m n supply demand)
    (h : ∑ i, supply i < ∑ j, demand j) :
    (¬ ∃ x, TransportFeasible m n supply demand x) ∧
    r.status = SolveStatus.infeasible ∧ r.assignment = none := by
  have hno : ¬ ∃ x, TransportFeasible m n supply demand x := by
    rintro ⟨x, hx⟩
    exact absurd (sum_demand_le_sum_supply m n supply demand x hx) (not_le.mpr h)
  refine ⟨hno, r.infeasible_iff.mpr hno, ?_⟩
  cases hr : r.assignment with
  | none => rfl
  | some x => exact absurd ⟨x, r.assignment_feasible x hr⟩ hno

/-- A concrete solve result for the instance with one supplier of capacity 0
and one consumer of demand 1, used to witness the infeasibility theorem. -/
def infeasibleExample : SolveResult 1 1 ![0] ![1] where
  status := SolveStatus.infeasible
  assignment := none
  infeasible_iff := by
    simp only [true_iff]
    rintro ⟨x, hx⟩
    have := sum_demand_le_sum_supply 1 1 ![0] ![1] x hx
    simp [Fin.sum_univ_one] at this
    linarith
  assignment_feasible := by
    intro x hx
    exact absurd hx (by simp)

/-- C5 instantiated at a concrete instance with supply `[0]` and
demand `[1]`. -/
theorem excess_demand_infeasible_witness :
    (¬ ∃ x, TransportFeasible 1 1 ![0] ![1] x) ∧
    infeasibleExample.status = SolveStatus.infeasible ∧
    infeasibleExample.assignment = none :=
  excess_demand_infeasible 1 1 ![0] ![1] infeasibleExample
    (by simp [Fin.sum_univ_one])

/-- C7: the concrete example data satisfies the assumed (unenforced)
feasibility invariant: total demand `500 + 900 + 1800 + 200 + 700 = 4100` is
at most total supply `1000 + 4000 = 5000`. -/
theorem example_data_demand_le_supply :
    (∑ j, d j) = 4100 ∧ (∑ i, b i) = 5000 ∧ (∑ j, d j) ≤ ∑ i, b i := by
  refine ⟨?_, ?_, ?_⟩ <;>
    simp [b, d, Fin.sum_univ_five, Fin.sum_univ_two] <;> norm_num

end Transportation

namespace MIOSolvers

/-- The feasible region of the first MIO cell:
`@variable(m, x, Bin)`, `@variable(m, y, Bin)`, `@constraint(m, x + 2y ≤ 1.5)`. -/
def knapFeasible (x y : ℝ) : Prop :=
  (x = 0 ∨ x = 1) ∧ (y = 0 ∨ y = 1) ∧ x + 2 * y ≤ 1.5

/-- The objective of the first MIO cell: `@objective(m, Max, x + y)`. -/
def knapObj (x y : ℝ) : ℝ := x + y

/-- C2: for the two-variable binary knapsack maximizing `x + y` subject to
`x + 2y ≤ 1.5`, solve reports status optimal with objective value exactly 1:
the assignment `x = 1, y = 0` is feasible with objective 1, and every binary
assignment satisfying the constraint has objective at most 1. -/
theorem two_var_knapsack_optimal :
    knapFeasible 1 0 ∧ knapObj 1 0 = 1 ∧
    ∀ x y, knapFeasible x y → knapObj x y ≤ 1 := by
  refine ⟨⟨Or.inr rfl, Or.inl rfl, by norm_num⟩, by norm_num [knapObj], ?_⟩
  rintro x y ⟨hx | hx, hy | hy, hc⟩ <;> subst hx <;> subst hy <;>
    norm_num [knapObj] at hc ⊢

/-- C2 instantiated at the optimal assignment `x = 1, y = 0`. -/
theorem two_var_knapsack_optimal_witness :
    knapObj 1 0 ≤ 1 :=
  two_var_knapsack_optimal.2.2 1 0 two_var_knapsack_optimal.1

/-- Modelled from the spec: the seeded random source (`srand(100)` followed by
`rand(N)` draws).  The spec treats it as a deterministic stream of draws in
`[0, 1)` fixed by the seed; a concrete linear-congruential stream stands in
for the external generator. -/
def randStream (seed : ℕ) : ℕ → ℚ := fun k =>
  (((seed + k) * 1103515245 + 12345) % 2147483648 : ℕ) / 2147483648

/-- Gurobi solver configuration knobs surfaced by the notebook:
`OutputFlag`, `TimeLimit`, `MIPGap`, `MIPFocus`. -/
structure GurobiSolver where
  outputFlag : Option ℕ
  timeLimit : Option ℚ
  mipGap : Option ℚ
  mipFocus : Option ℕ

/-- The constructor call `GurobiSolver()` with every parameter left at its
default. -/
def GurobiSolver.plain : GurobiSolver := ⟨none, none, none, none⟩

/-- The constructor call `GurobiSolver(TimeLimit=1)`. -/
def GurobiSolver.timeLimit1 : GurobiSolver := ⟨none, some 1, none, none⟩

/-- A built knapsack model: variable count, the 10 random constraint
coefficient vectors with their common right-hand side, the random objective
coefficients, and the solver configuration handed to `Model`. -/
structure KnapModel where
  nvars : ℕ
  constraintCoeffs : List (List ℚ)
  rhs : ℚ
  objCoeffs : List ℚ
  solver : GurobiSolver

/-- The synthetic knapsack builder cell, run with solver configuration `s`:
`srand(100); N = 350; m = Model(solver=s); @variable(m, x[1:N], Bin);`
ten constraints `dot(rand(N), x) ≤ N / 50`; objective `Max dot(rand(N), x)`.
The reseeded stream is consumed left to right: constraint `k` uses draws
`k*350 .. k*350 + 349`, the objective the next 350 draws. -/
def mkKnapCell (s : GurobiSolver) : KnapModel where
  nvars := 350
  constraintCoeffs :=
    (List.range 10).map fun k => (List.range 350).map fun i => randStream 100 (k * 350 + i)
  rhs := 350 / 50
  objCoeffs := (List.range 350).map fun i => randStream 100 (10 * 350 + i)
  solver := s

/-- The earlier, unlimited cell: `m = Model(solver=GurobiSolver())`. -/
def knapCellUnlimited : KnapModel := mkKnapCell GurobiSolver.plain

/-- The later, time-limited cell: `m = Model(solver=GurobiSolver(TimeLimit=1))`. -/
def knapCellTimeLimited : KnapModel := mkKnapCell GurobiSolver.timeLimit1

/-- C8: the `N = 350` builder is deterministic in the seed: the unlimited
cell and the time-limited cell, each reseeding with `srand(100)`, build
identical problem data — the same 10 constraint coefficient vectors, the same
right-hand side `N / 50`, and the same objective coefficients — so the
time-limited cell solves exactly the instance of the earlier cell. -/
theorem seeded_builder_deterministic :
    knapCellUnlimited.nvars = knapCellTimeLimited.nvars ∧
    knapCellUnlimited.constraintCoeffs = knapCellTimeLimited.constraintCoeffs ∧
    knapCellUnlimited.rhs = knapCellTimeLimited.rhs ∧
    knapCellUnlimited.objCoeffs = knapCellTimeLimited.objCoeffs ∧
    knapCellUnlimited.constraintCoeffs.length = 10 ∧
    knapCellUnlimited.rhs = 350 / 50 := by
  refine ⟨rfl, rfl, rfl, rfl, ?_, rfl⟩
  simp [knapCellUnlimited, mkKnapCell]

/-- C9: the configuration knobs are pure pass-through: building the model
with any solver configuration stores that configuration verbatim, and in
particular the time-limited cell's model carries `TimeLimit = 1` unchanged,
with no limit, gap or focus logic of the notebook's own in between. -/
theorem solver_config_passthrough :
    (∀ s : GurobiSolver, (mkKnapCell s).solver = s) ∧
    GurobiSolver.timeLimit1.timeLimit = some 1 ∧
    knapCellTimeLimited.solver = GurobiSolver.timeLimit1 ∧
    knapCellTimeLimited.solver.timeLimit = some 1 :=
  ⟨fun _ => rfl, rfl, rfl, rfl⟩

end MIOSolvers

namespace WordEmbeddings

/-- Modelled from the spec: the external padding transform `pad_sequences`
(spec §6), whose code is not in this repository.  It maps a variable-length
integer sequence to length exactly `maxlen`, padding with the sentinel token
`0` when shorter and truncating when longer; the padding/truncation side is a
library default the spec leaves open, fixed here as left-padding and
front-truncation. -/
def pad_sequences (maxlen : ℕ) (s : List ℕ) : List ℕ :=
  if s.length ≤ maxlen then List.replicate (maxlen - s.length) 0 ++ s
  else s.drop (s.length - maxlen)

/-- Modelled from the spec: the single out-of-vocabulary sentinel value that
tokens outside the restricted vocabulary are mapped to. -/
def oovToken : ℕ := 2

/-- Modelled from the spec: the vocabulary-restriction transform applied by
the loader under `num_words = 5000` (spec §6, §8 item 5): tokens are
frequency ranks, a token whose rank exceeds the cap becomes the
out-of-vocabulary sentinel, and a token within the cap is kept unchanged. -/
def restrictVocab (numWords : ℕ) (s : List ℕ) : List ℕ :=
  s.map fun t => if numWords < t then oovToken else t

/-- Modelled from the spec: the benchmark loader
`dataset_imdb(num_words = 5000, maxlen = 500, seed = 17)` (spec §6): returns
the vocabulary-restricted token sequences of the reviews, keeping only
reviews whose length is at most the maximum sequence length. -/
def dataset_imdb (numWords maxlen : ℕ) (raw : List (List ℕ)) : List (List ℕ) :=
  (raw.filter fun s => s.length ≤ maxlen).map (restrictVocab numWords)

/-- C3: padding with fixed length 500 gives, for every sequence of length
`L < 500`, an output of length exactly 500 that contains the original tokens
in their original order and (tokens being nonzero frequency ranks) exactly
`500 - L` sentinel zero tokens; for every sequence of length `L ≥ 500`, an
output of length exactly 500 with no inserted sentinel: every output token
comes from the input, in order. -/
theorem pad_sequences_fixed_length (s : List ℕ) :
    (s.length < 500 →
      (pad_sequences 500 s).length = 500 ∧
      List.Sublist s (pad_sequences 500 s) ∧
      ((∀ t ∈ s, t ≠ 0) → List.count 0 (pad_sequences 500 s) = 500 - s.length)) ∧
    (500 ≤ s.length →
      (pad_sequences 500 s).length = 500 ∧
      List.Sublist (pad_sequences 500 s) s) := by
  constructor
  · intro hlt
    have hle : s.length ≤ 500 := hlt.le
    rw [pad_sequences, if_pos hle]
    refine ⟨?_, List.sublist_append_right _ _, ?_⟩
    · simp only [List.length_append, List.length_replicate]
      omega
    · intro hnz
      have h0 : List.count 0 s = 0 :=
        List.count_eq_zero.mpr fun hmem => hnz 0 hmem rfl
      simp [List.count_append, h0]
  · intro hge
    rcases eq_or_lt_of_le hge with heq | hgt
    · rw [pad_sequences, if_pos heq.symm.le]
      have h0 : 500 - s.length = 0 := by omega
      rw [h0]
      constructor
      · simpa using heq.symm
      · simp
    · rw [pad_sequences, if_neg (by omega)]
      constructor
      · simp only [List.length_drop]
        omega
      · exact List.drop_sublist _ _

/-- C3 instantiated at the concrete review `[1, 2, 3]` of length 3: padding
yields 500 tokens, 497 of them the sentinel. -/
theorem pad_sequences_fixed_length_witness :
    (pad_sequences 500 [1, 2, 3]).length = 500 ∧
    List.count 0 (pad_sequences 500 [1, 2, 3]) = 500 - ([1, 2, 3] : List ℕ).length :=
  ⟨((pad_sequences_fixed_length [1, 2, 3]).1 (by decide)).1,
   ((pad_sequences_fixed_length [1, 2, 3]).1 (by decide)).2.2 (by decide)⟩

/-- Elementwise description of the vocabulary restriction, via `getD`. -/
theorem restrictVocab_getD (numWords : ℕ) (s : List ℕ) (i : ℕ) :
    (restrictVocab numWords s).getD i 0 =
      if numWords < s.getD i 0 then oovToken else s.getD i 0 := by
  induction s generalizing i with
  | nil => simp [restrictVocab]
  | cons a t ih =>
    cases i with
    | zero => simp [restrictVocab]
    | succ j => simpa [restrictVocab] using ih j

/-- C4: the vocabulary restriction with cap 5000 maps every token whose
frequency rank exceeds 5000 to the single out-of-vocabulary sentinel and
leaves every token with rank at most 5000 numerically unchanged, preserving
positions and length. -/
theorem restrictVocab_cap_5000 (s : List ℕ) (i : ℕ) :
    (restrictVocab 5000 s).length = s.length ∧
    (5000 < s.getD i 0 → (restrictVocab 5000 s).getD i 0 = oovToken) ∧
    (s.getD i 0 ≤ 5000 → (restrictVocab 5000 s).getD i 0 = s.getD i 0) := by
  refine ⟨List.length_map s _, ?_, ?_⟩
  · intro h
    rw [restrictVocab_getD, if_pos h]
  · intro h
    rw [restrictVocab_getD, if_neg (not_lt.mpr h)]

/-- C4 instantiated at the sequence `[3, 6000]`: the rank-6000 token becomes
the sentinel, the rank-3 token is unchanged. -/
theorem restrictVocab_cap_5000_witness :
    (restrictVocab 5000 [3, 6000]).getD 1 0 = oovToken ∧
    (restrictVocab 5000 [3, 6000]).getD 0 0 = ([3, 6000] : List ℕ).getD 0 0 :=
  ⟨(restrictVocab_cap_5000 [3, 6000] 1).2.1 (by decide),
   (restrictVocab_cap_5000 [3, 6000] 0).2.2 (by decide)⟩

/-- One row of the training history returned by a fit call. -/
structure EpochRecord where
  epoch : ℕ
  loss : ℚ
  accuracy : ℚ

/-- Modelled from the spec: the external `fit(epochs = E, ...)` call
(spec §4.2, §8 item 6), which runs iterative training and returns per-epoch
loss/accuracy history — one record per epoch, indexed by epoch number.  The
numerical loss and accuracy values are training outcomes, abstracted here as
functions of the epoch number. -/
def fit (epochs : ℕ) (lossOf accOf : ℕ → ℚ) : List EpochRecord :=
  (List.range epochs).map fun e => ⟨e + 1, lossOf (e + 1), accOf (e + 1)⟩

/-- C6: a completed fit call over `E` epochs returns a history with exactly
`E` loss observations and exactly `E` accuracy observations (one record per
epoch), whose epoch indices are exactly `1, 2, ..., E` in strictly increasing
order. -/
theorem fit_history_epochs (E : ℕ) (lossOf accOf : ℕ → ℚ) :
    (fit E lossOf accOf).length = E ∧
    ((fit E lossOf accOf).map EpochRecord.loss).length = E ∧
    ((fit E lossOf accOf).map EpochRecord.accuracy).length = E ∧
    (fit E lossOf accOf).map EpochRecord.epoch = (List.range E).map (· + 1) ∧
    ((fit E lossOf accOf).map EpochRecord.epoch).Pairwise (· < ·) := by
  refine ⟨by simp [fit], by simp [fit], by simp [fit], by simp [fit], ?_⟩
  have : (fit E lossOf accOf).map EpochRecord.epoch = (List.range E).map (· + 1) := by
    simp [fit]
  rw [this, List.pairwise_map]
  exact (List.pairwise_lt_range E).imp fun h => by omega

/-- C10: every sequence returned by the loader invoked with maximum length
500 has length at most 500; consequently padding such a sequence only pads
and never truncates, and every original token appears, in order, in the
fixed-length padded row. -/
theorem loader_sequences_only_padded (raw : List (List ℕ)) (s : List ℕ)
    (hs : s ∈ dataset_imdb 5000 500 raw) :
    s.length ≤ 500 ∧
    pad_sequences 500 s = List.replicate (500 - s.length) 0 ++ s ∧
    List.Sublist s (pad_sequences 500 s) := by
  obtain ⟨t, ht, rfl⟩ := List.mem_map.mp hs
  have hlen : (restrictVocab 5000 t).length ≤ 500 := by
    rw [(restrictVocab_cap_5000 t 0).1]
    simpa using (List.mem_filter.mp ht).2
  refine ⟨hlen, ?_, ?_⟩
  · rw [pad_sequences, if_pos hlen]
  · rw [pad_sequences, if_pos hlen]
    exact List.sublist_append_right _ _

/-- C10 instantiated at the loaded singleton dataset `[[1, 2]]`. -/
theorem loader_sequences_only_padded_witness :
    ([1, 2] : List ℕ).length ≤ 500 ∧
    pad_sequences 500 [1, 2] = List.replicate (500 - ([1, 2] : List ℕ).length) 0 ++ [1, 2] ∧
    List.Sublist [1, 2] (pad_sequences 500 [1, 2]) :=
  loader_sequences_only_padded [[1, 2]] [1, 2] (by decide)

end WordEmbeddings
